import Mathlib

/-!
# cloudwatchlogsbeat: the stream worker and its multi-line reassembly

A shallow embedding of `beater/stream.go` (`publish`, `digest`, `Next`,
`Monitor`) and of `config/config.go` (`Multiline`), with the external
collaborators made explicit:

* the regular-expression library is the function `MatchString`;
* the log API client is the function `GetLogEvents`;
* the checkpoint registry is the pair `ReadStreamInfo` / `WriteStreamInfo`;
* the event publisher, the registry and the `finished` channel are observed
  through a log of actions carried next to the stream (`World.log`).

Go strings and the `bytes.Buffer` are Lean strings; `WriteString` is append and
`Buffer.Len() == 0` is the test for the empty string.  Pointers that the worker
dereferences without a check (`streamEvent.Message`, `stream.MultiRegex` when a
multi-line configuration is present) are modelled by their pointees, so the
model covers the stream states built by `NewStream` and well-formed API events.
-/

namespace Cloudwatchlogsbeat

/-! ## Data model -/

/-- Go `config.Multiline`: the boundary pattern, the negate flag and the mode. -/
structure Multiline where
  Pattern : String
  Negate : Bool
  Match : String
deriving DecidableEq, Repr

/-- Go `*regexp.Regexp`, as compiled by `NewStream` from `Multiline.Pattern`. -/
structure Regexp where
  expr : String
deriving DecidableEq, Repr

/-- Go `cloudwatchlogs.OutputLogEvent`: `Timestamp` is a `*int64` read through
`aws.Int64Value`, `Message` a `*string` that `digest` dereferences. -/
structure OutputLogEvent where
  Timestamp : Option Int
  Message : String
deriving DecidableEq, Repr

/-- Go `cloudwatchlogs.GetLogEventsOutput`, the fields `Next` reads. -/
structure GetLogEventsOutput where
  Events : List OutputLogEvent
  NextForwardToken : Option String
deriving DecidableEq, Repr

/-- Go `cloudwatchlogs.GetLogEventsInput`, as filled in by `NewStream`;
`NextToken` is the position token. -/
structure GetLogEventsInput where
  LogGroupName : String
  LogStreamName : String
  StartFromHead : Bool
  Limit : Int
  StartTime : Int
  NextToken : Option String
deriving DecidableEq, Repr

/-- Go `beater.Event`, the record handed to the publisher: the owning stream
(by name), the timestamp and the assembled text. -/
structure Event where
  Stream : String
  Timestamp : Int
  Message : String
deriving DecidableEq, Repr

/-- Go `beater.Stream`, the fields the worker reads or writes. -/
structure Stream where
  Name : String
  Group : String
  Params : GetLogEventsInput
  Buffer : String
  Multiline : Option Multiline
  MultiRegex : Regexp
deriving DecidableEq, Repr

/-- One observable action of a stream worker on its collaborators. -/
inductive Action where
  | readInfo (s : Stream)
  | fetch (p : GetLogEventsInput)
  | publish (e : Event)
  | writeInfo (s : Stream)
  | sleep
  | finished
deriving DecidableEq, Repr

/-- The stream together with the actions performed so far, oldest first. -/
structure World where
  stream : Stream
  log : List Action
deriving DecidableEq, Repr

/-- Go `aws.Int64Value`: the pointee, or zero for a nil pointer. -/
def Int64Value (p : Option Int) : Int :=
  match p with
  | some v => v
  | none => 0

/-! ## `stream.go`: publish and digest -/

/-- Go `stream.Buffer.WriteString(m)`. -/
def WriteString (w : World) (m : String) : World :=
  { w with stream := { w.stream with Buffer := w.stream.Buffer ++ m } }

/-- Go `Stream.publish`: nothing on an empty buffer; otherwise the buffer
becomes the event's message, the event goes to the publisher and the buffer is
reset. -/
def publish (w : World) (event : Event) : World :=
  if w.stream.Buffer.length = 0 then w
  else
    { stream := { w.stream with Buffer := "" }
      log := w.log ++ [Action.publish { event with Message := w.stream.Buffer }] }

/-- Go `Stream.digest`. -/
def digest (MatchString : Regexp → String → Bool) (w : World)
    (streamEvent : OutputLogEvent) : World :=
  let event : Event :=
    { Stream := w.stream.Name, Timestamp := Int64Value streamEvent.Timestamp, Message := "" }
  match w.stream.Multiline with
  | none => publish (WriteString w streamEvent.Message) event
  | some ml =>
    if ml.Match = "after" then
      let w1 :=
        if (MatchString w.stream.MultiRegex streamEvent.Message == ml.Negate) = true then
          publish w event
        else w
      WriteString w1 streamEvent.Message
    else if ml.Match = "before" then
      let w1 := WriteString w streamEvent.Message
      if (MatchString w.stream.MultiRegex streamEvent.Message == ml.Negate) = true then
        publish w1 event
      else w1
    else w

/-- The loop `for _, streamEvent := range output.Events { stream.digest(streamEvent) }`
of `Next`. -/
def digestAll (MatchString : Regexp → String → Bool) (w : World)
    (events : List OutputLogEvent) : World :=
  events.foldl (digest MatchString) w

/-! ## `stream.go`: Next and Monitor -/

/-- The assignment `stream.Params.NextToken = output.NextForwardToken` of `Next`. -/
def setNextToken (s : Stream) (token : Option String) : Stream :=
  { s with Params := { s.Params with NextToken := token } }

/-- Go `Stream.Next`.  `GetLogEvents` is the client call of this iteration,
`WriteStreamInfo` the registry write; the result is the new world and the
returned error (`none` for nil). -/
def Next (MatchString : Regexp → String → Bool)
    (GetLogEvents : GetLogEventsInput → Except String GetLogEventsOutput)
    (WriteStreamInfo : Stream → Option String) (w : World) : World × Option String :=
  let w0 : World := { w with log := w.log ++ [Action.fetch w.stream.Params] }
  match GetLogEvents w.stream.Params with
  | Except.error err => (w0, some err)
  | Except.ok output =>
    if output.Events.length = 0 then (w0, none)
    else
      let w1 := digestAll MatchString w0 output.Events
      let s2 : Stream := setNextToken w1.stream output.NextForwardToken
      let w2 : World := { stream := s2, log := w1.log ++ [Action.writeInfo s2] }
      match WriteStreamInfo s2 with
      | some err => (w2, some err)
      | none => (w2, none)

/-- The collaborators of one run of `Monitor`.  The client, the registry write
and the `expired` channel are indexed by the loop iteration, so that successive
calls may answer differently; `expired i` says whether a value can be received
from the channel at the `select` of iteration `i`. -/
structure Env where
  MatchString : Regexp → String → Bool
  ReadStreamInfo : Stream → Stream × Option String
  GetLogEvents : Nat → GetLogEventsInput → Except String GetLogEventsOutput
  WriteStreamInfo : Nat → Stream → Option String
  expired : Nat → Bool

/-- The `for` loop of `Monitor` from iteration `i` on; `none` when the loop is
still running after `fuel` iterations. -/
def MonitorLoop (env : Env) (fuel : Nat) (i : Nat) (w : World) : Option World :=
  match fuel with
  | 0 => none
  | fuel + 1 =>
    match Next env.MatchString (env.GetLogEvents i) (env.WriteStreamInfo i) w with
    | (w1, some _) => some w1
    | (w1, none) =>
      if env.expired i = true then some w1
      else MonitorLoop env fuel (i + 1) { w1 with log := w1.log ++ [Action.sleep] }

/-- The body of `Monitor` without the deferred send. -/
def MonitorBody (env : Env) (fuel : Nat) (w : World) : Option World :=
  let w0 : World :=
    { stream := (env.ReadStreamInfo w.stream).1, log := w.log ++ [Action.readInfo w.stream] }
  match (env.ReadStreamInfo w.stream).2 with
  | some _ => some w0
  | none => MonitorLoop env fuel 0 w0

/-- Go `Stream.Monitor`: the body, then the deferred `stream.finished <- true`
once the body has returned. -/
def Monitor (env : Env) (fuel : Nat) (w : World) : Option World :=
  (MonitorBody env fuel w).map fun w1 => { w1 with log := w1.log ++ [Action.finished] }

/-! ## Observations on the action log -/

/-- The texts of the records handed to the publisher, in publish order. -/
def publishedTexts (log : List Action) : List String :=
  log.filterMap fun a =>
    match a with
    | Action.publish e => some e.Message
    | _ => none

/-- The concatenation of a list of texts. -/
def concatTexts (texts : List String) : String :=
  texts.foldr (fun t acc => t ++ acc) ""

/-- The condition `MatchString(message) == Negate` that `digest` tests. -/
def isBoundary (MatchString : Regexp → String → Bool) (s : Stream) (ml : Multiline)
    (message : String) : Bool :=
  MatchString s.MultiRegex message == ml.Negate

/-! ## The reference step of the specification -/

/-- The two modes of the multi-line configuration. -/
inductive Mode where
  | after
  | before
deriving DecidableEq, Repr

/-- The value of `Multiline.Match` that selects a mode. -/
def Mode.name (m : Mode) : String :=
  match m with
  | Mode.after => "after"
  | Mode.before => "before"

/-- Flushing in the specification: a no-op on an empty buffer, otherwise the
buffer is the completed record and the buffer is left empty.  The result is the
list of records published and the buffer. -/
def flushRef (buffer : String) : List String × String :=
  if buffer = "" then ([], "") else ([buffer], "")

/-- The per-line step of the specification (section 4.3): in mode after, flush
on a boundary and then append the line; in mode before, append the line and
then flush on a boundary. -/
def referenceStep (mode : Mode) (boundary : Bool) (buffer line : String) :
    List String × String :=
  match mode with
  | Mode.after =>
    if boundary = true then ((flushRef buffer).1, (flushRef buffer).2 ++ line)
    else ([], buffer ++ line)
  | Mode.before =>
    if boundary = true then flushRef (buffer ++ line) else ([], buffer ++ line)

/-- The per-line step as the claim words it: as `referenceStep`, except that in
mode before a boundary publishes the whole buffer (old buffer followed by the
message) whatever it holds. -/
def claimedStep (mode : Mode) (boundary : Bool) (buffer line : String) :
    List String × String :=
  match mode with
  | Mode.after =>
    if boundary = true then ((flushRef buffer).1, (flushRef buffer).2 ++ line)
    else ([], buffer ++ line)
  | Mode.before =>
    if boundary = true then ([buffer ++ line], "") else ([], buffer ++ line)

/-- The world after a step that published the texts `r.1`, stamped with the
timestamp of the event being digested, and left the buffer `r.2`. -/
def stepWorld (w : World) (streamEvent : OutputLogEvent) (r : List String × String) : World :=
  { stream := { w.stream with Buffer := r.2 }
    log := w.log ++ r.1.map fun t =>
      Action.publish
        { Stream := w.stream.Name, Timestamp := Int64Value streamEvent.Timestamp, Message := t } }

/-- The record `digest` builds for an event before the publisher fills in its
text: the owning stream and the event's timestamp. -/
def recordOf (s : Stream) (streamEvent : OutputLogEvent) (text : String) : Event :=
  { Stream := s.Name, Timestamp := Int64Value streamEvent.Timestamp, Message := text }

/-- The records handed to the publisher, in publish order. -/
def publishedEvents (log : List Action) : List Event :=
  log.filterMap fun a =>
    match a with
    | Action.publish e => some e
    | _ => none

/-- The stream states handed to the registry for writing, in order. -/
def registryWrites (log : List Action) : List Stream :=
  log.filterMap fun a =>
    match a with
    | Action.writeInfo s => some s
    | _ => none

/-! ## The reference run of mode after with the record's starting timestamp -/

/-- The buffer of the specification: the text of the record in progress, the
timestamp of its starting event, and the records completed so far. -/
structure RefState where
  buffer : String
  start : Int
  out : List Event
deriving DecidableEq, Repr

/-- Mode after as the specification words it: on a boundary the buffer is
flushed as a record timestamped with the record's starting event, then the line
is appended; a line appended to an empty buffer starts a record. -/
def referenceAfterStep (boundary : String → Bool) (name : String) (st : RefState)
    (streamEvent : OutputLogEvent) : RefState :=
  let st1 : RefState :=
    if boundary streamEvent.Message = true ∧ st.buffer ≠ "" then
      { buffer := ""
        start := st.start
        out := st.out ++ [{ Stream := name, Timestamp := st.start, Message := st.buffer }] }
    else st
  { buffer := st1.buffer ++ streamEvent.Message
    start := if st1.buffer = "" then Int64Value streamEvent.Timestamp else st1.start
    out := st1.out }

/-- The records the specification publishes for a sequence of events in mode
after, from an empty buffer. -/
def referenceAfterRun (boundary : String → Bool) (name : String)
    (events : List OutputLogEvent) : List Event :=
  (events.foldl (referenceAfterStep boundary name) { buffer := "", start := 0, out := [] }).out

/-! ## Concrete inputs -/

/-- Go `regexp` on the pattern `^END$`: the text END matches and nothing else;
other patterns are not needed and match nothing. -/
def endMatcher (re : Regexp) (text : String) : Bool :=
  if re.expr = "^END$" then text == "END" else false

/-- A stream of group `group` named `stream`, with the pattern `^END$` compiled,
the given multi-line configuration and the given buffer, and nothing done yet. -/
def exampleWorld (ml : Option Multiline) (buffer : String) : World :=
  { stream :=
      { Name := "stream"
        Group := "group"
        Params :=
          { LogGroupName := "group", LogStreamName := "stream", StartFromHead := true,
            Limit := 100, StartTime := 0, NextToken := none }
        Buffer := buffer
        Multiline := ml
        MultiRegex := { expr := "^END$" } }
    log := [] }

/-- The four events of the example of the specification, with timestamps 1 to 4. -/
def exampleEvents : List OutputLogEvent :=
  [{ Timestamp := some 1, Message := "a" }, { Timestamp := some 2, Message := "b" },
   { Timestamp := some 3, Message := "END" }, { Timestamp := some 4, Message := "c" }]

/-- The configuration of the example: pattern `^END$`, mode after. -/
def exampleAfter (negate : Bool) : Multiline :=
  { Pattern := "^END$", Negate := negate, Match := "after" }

/-- Pattern `^END$`, negate false, mode before. -/
def exampleBefore : Multiline :=
  { Pattern := "^END$", Negate := false, Match := "before" }

/-- Collaborators for a run of `Monitor`: the registry read fails if `readErr`,
every fetch returns an empty batch, or an error if `fetchErr`, every write
succeeds, and the expiration signal is there from iteration `expireAt` on. -/
def exampleEnv (readErr fetchErr : Bool) (expireAt : Nat) : Env :=
  { MatchString := endMatcher
    ReadStreamInfo := fun s => (s, if readErr then some "registry read failed" else none)
    GetLogEvents := fun _ _ =>
      if fetchErr then Except.error "fetch failed"
      else Except.ok { Events := [], NextForwardToken := none }
    WriteStreamInfo := fun _ _ => none
    expired := fun i => decide (expireAt ≤ i) }

/-! ## The group's refresh -/

/-- One entry of the remote listing: Go `cloudwatchlogs.LogStream` as the tests
of `group_test.go` build it, with an optional last-event timestamp. -/
structure LogStream where
  LogStreamName : String
  LastEventTimestamp : Option Int
deriving DecidableEq, Repr

/-- Modelled from the spec: the Group of `group.go`, which is not among the
sources.  The live set `Streams` is kept as the list of its keys, the stream
names, in insertion order; the Stream stored under a key and the worker started
for it are left out.  Times and the horizon are in milliseconds. -/
structure Group where
  Name : String
  StreamLastEventHorizon : Int
  Streams : List String
deriving DecidableEq, Repr

/-- Modelled from the spec: the treatment of one listing entry by
`Group.RefreshStreams` (section 4.1, step 2), whose implementation is missing.
An entry without a last-event timestamp is skipped; so is one whose age
`now - timestamp` exceeds the horizon; a fresh entry not yet in the live set is
inserted under its name; one already present causes no action. -/
def refreshEntry (now : Int) (g : Group) (entry : LogStream) : Group :=
  match entry.LastEventTimestamp with
  | none => g
  | some t =>
    if now - t > g.StreamLastEventHorizon then g
    else if entry.LogStreamName ∈ g.Streams then g
    else { g with Streams := g.Streams ++ [entry.LogStreamName] }

/-- Modelled from the spec: `Group.RefreshStreams` on a successful listing
(section 4.1), whose implementation is missing: every entry of the listing, all
pages accumulated, is treated in turn. -/
def RefreshStreams (now : Int) (listing : List LogStream) (g : Group) : Group :=
  listing.foldl (refreshEntry now) g

/-- Modelled from the spec: the freshness test that `Group.RefreshStreams`, whose
implementation is missing, applies to a listing entry: the last-event timestamp
is defined and its age does not exceed the horizon. -/
def isFresh (now horizon : Int) (entry : LogStream) : Bool :=
  match entry.LastEventTimestamp with
  | none => false
  | some t => decide (now - t ≤ horizon)

/-! # Theorems -/

/-! ## Auxiliary lemmas -/

theorem length_eq_zero_iff (s : String) : s.length = 0 ↔ s = "" := by
  constructor
  · intro h
    cases s with
    | mk data =>
      have hd : data = [] := List.length_eq_zero.mp h
      subst hd
      rfl
  · intro h
    subst h
    rfl

theorem publish_of_empty (w : World) (event : Event) (h : w.stream.Buffer = "") :
    publish w event = w := by
  unfold publish
  rw [if_pos ((length_eq_zero_iff _).mpr h)]

theorem publish_of_nonempty (w : World) (event : Event) (h : w.stream.Buffer ≠ "") :
    publish w event =
      { stream := { w.stream with Buffer := "" }
        log := w.log ++ [Action.publish { event with Message := w.stream.Buffer }] } := by
  unfold publish
  rw [if_neg (fun hl => h ((length_eq_zero_iff _).mp hl))]

theorem publish_buffer (w : World) (event : Event) : (publish w event).stream.Buffer = "" := by
  by_cases h : w.stream.Buffer = ""
  · rw [publish_of_empty w event h]; exact h
  · rw [publish_of_nonempty w event h]

/-- One step of `digest` under a multi-line configuration in one of the two
modes, in terms of the reference step. -/
theorem digest_eq_stepWorld (MatchString : Regexp → String → Bool) (w : World) (ml : Multiline)
    (streamEvent : OutputLogEvent) (mode : Mode)
    (hml : w.stream.Multiline = some ml) (hmode : ml.Match = mode.name) :
    digest MatchString w streamEvent =
      stepWorld w streamEvent
        (referenceStep mode (isBoundary MatchString w.stream ml streamEvent.Message)
          w.stream.Buffer streamEvent.Message) := by
  obtain ⟨s, log⟩ := w
  simp only at hml
  cases mode with
  | after =>
    have hm : ml.Match = "after" := hmode
    simp only [digest, hml, hm, if_true, referenceStep, isBoundary, stepWorld]
    by_cases hb : (MatchString s.MultiRegex streamEvent.Message == ml.Negate) = true
    · simp only [hb, if_true]
      by_cases he : s.Buffer = ""
      · rw [publish_of_empty _ _ he]
        simp [flushRef, he, WriteString, hml]
      · rw [publish_of_nonempty _ _ he]
        simp [flushRef, he, WriteString, hml]
    · simp [hb, WriteString, hml]
  | before =>
    have hm : ml.Match = "before" := hmode
    have hne : ¬ ("before" = "after") := by decide
    simp only [digest, hml, hm, hne, if_false, if_true, referenceStep, isBoundary, stepWorld]
    by_cases hb : (MatchString s.MultiRegex streamEvent.Message == ml.Negate) = true
    · simp only [hb, if_true]
      by_cases he : s.Buffer ++ streamEvent.Message = ""
      · rw [publish_of_empty _ _ (by simpa [WriteString] using he)]
        simp [flushRef, he, WriteString, hml]
      · rw [publish_of_nonempty _ _ (by simpa [WriteString] using he)]
        simp [flushRef, he, WriteString, hml]
    · simp [hb, WriteString, hml]

theorem publishedTexts_append (l1 l2 : List Action) :
    publishedTexts (l1 ++ l2) = publishedTexts l1 ++ publishedTexts l2 := by
  simp [publishedTexts, List.filterMap_append]

theorem publishedTexts_publish (recs : List Event) :
    publishedTexts (recs.map Action.publish) = recs.map fun r => r.Message := by
  induction recs with
  | nil => rfl
  | cons r rs ih =>
    simp only [List.map_cons]
    rw [← ih]
    rfl

theorem stepWorld_log (w : World) (streamEvent : OutputLogEvent) (r : List String × String) :
    (stepWorld w streamEvent r).log =
      w.log ++ (r.1.map (recordOf w.stream streamEvent)).map Action.publish := by
  simp [stepWorld, recordOf, List.map_map, Function.comp_def]

theorem publishedTexts_stepWorld (w : World) (streamEvent : OutputLogEvent)
    (r : List String × String) :
    publishedTexts (stepWorld w streamEvent r).log = publishedTexts w.log ++ r.1 := by
  rw [stepWorld_log, publishedTexts_append, publishedTexts_publish]
  simp [recordOf, List.map_map, Function.comp_def]

/-- One step of `digest` without a multi-line configuration: append, then flush. -/
theorem digest_none (MatchString : Regexp → String → Bool) (w : World)
    (streamEvent : OutputLogEvent) (hml : w.stream.Multiline = none) :
    digest MatchString w streamEvent =
      stepWorld w streamEvent (flushRef (w.stream.Buffer ++ streamEvent.Message)) := by
  obtain ⟨s, log⟩ := w
  simp only at hml
  simp only [digest, hml, stepWorld]
  by_cases he : s.Buffer ++ streamEvent.Message = ""
  · rw [publish_of_empty _ _ (by simpa [WriteString] using he)]
    simp [flushRef, he, WriteString, hml]
  · rw [publish_of_nonempty _ _ (by simpa [WriteString] using he)]
    simp [flushRef, he, WriteString, hml]

/-- Under a multi-line configuration whose mode is neither of the two, `digest`
changes nothing. -/
theorem digest_other (MatchString : Regexp → String → Bool) (w : World) (ml : Multiline)
    (streamEvent : OutputLogEvent) (hml : w.stream.Multiline = some ml)
    (ha : ml.Match ≠ "after") (hb : ml.Match ≠ "before") :
    digest MatchString w streamEvent = w := by
  simp [digest, hml, ha, hb]

theorem flushRef_nonempty (buffer : String) : ∀ t ∈ (flushRef buffer).1, t ≠ "" := by
  intro t ht
  unfold flushRef at ht
  by_cases he : buffer = ""
  · simp [he] at ht
  · simp [he] at ht
    subst ht
    exact he

theorem flushRef_concat (buffer : String) :
    concatTexts (flushRef buffer).1 ++ (flushRef buffer).2 = buffer := by
  unfold flushRef
  by_cases he : buffer = ""
  · simp [he, concatTexts]
  · simp [he, concatTexts]

theorem referenceStep_nonempty (mode : Mode) (b : Bool) (buffer line : String) :
    ∀ t ∈ (referenceStep mode b buffer line).1, t ≠ "" := by
  intro t ht
  cases mode <;> cases b <;> simp [referenceStep] at ht
  · exact flushRef_nonempty _ t ht
  · exact flushRef_nonempty _ t ht

theorem referenceStep_concat (mode : Mode) (b : Bool) (buffer line : String) :
    concatTexts (referenceStep mode b buffer line).1 ++ (referenceStep mode b buffer line).2 =
      buffer ++ line := by
  cases mode <;> cases b <;> simp [referenceStep, concatTexts]
  · rw [← String.append_assoc]
    have h := flushRef_concat buffer
    simp only [concatTexts] at h
    rw [h]
  · have h := flushRef_concat (buffer ++ line)
    simp only [concatTexts] at h
    exact h

/-- Every step of `digest` is a `stepWorld`: it publishes some texts, all
non-empty, stamped with the event's timestamp, and changes only the buffer. -/
theorem digest_shape (MatchString : Regexp → String → Bool) (w : World)
    (streamEvent : OutputLogEvent) :
    ∃ r : List String × String,
      digest MatchString w streamEvent = stepWorld w streamEvent r ∧
      (∀ t ∈ r.1, t ≠ "") ∧
      ((w.stream.Multiline = none ∨
          ∃ ml, w.stream.Multiline = some ml ∧ (ml.Match = "after" ∨ ml.Match = "before")) →
        concatTexts r.1 ++ r.2 = w.stream.Buffer ++ streamEvent.Message) := by
  cases hml : w.stream.Multiline with
  | none =>
    exact ⟨_, digest_none MatchString w streamEvent hml, flushRef_nonempty _,
      fun _ => flushRef_concat _⟩
  | some ml =>
    by_cases ha : ml.Match = "after"
    · exact ⟨_, digest_eq_stepWorld MatchString w ml streamEvent Mode.after hml ha,
        referenceStep_nonempty _ _ _ _, fun _ => referenceStep_concat _ _ _ _⟩
    · by_cases hb : ml.Match = "before"
      · exact ⟨_, digest_eq_stepWorld MatchString w ml streamEvent Mode.before hml hb,
          referenceStep_nonempty _ _ _ _, fun _ => referenceStep_concat _ _ _ _⟩
      · refine ⟨([], w.stream.Buffer), ?_, ?_, ?_⟩
        · rw [digest_other MatchString w ml streamEvent hml ha hb]
          simp [stepWorld]
        · intro t ht
          simp at ht
        · intro h
          rcases h with h | ⟨ml2, h1, h2⟩
          · simp at h
          · simp only [Option.some.injEq] at h1
            subst h1
            rcases h2 with h2 | h2
            · exact absurd h2 ha
            · exact absurd h2 hb

theorem concatTexts_append (a b : List String) :
    concatTexts (a ++ b) = concatTexts a ++ concatTexts b := by
  induction a with
  | nil => simp [concatTexts]
  | cons t ts ih =>
    simp only [concatTexts, List.cons_append, List.foldr_cons] at ih ⊢
    rw [ih, String.append_assoc]

theorem digestAll_cons (MatchString : Regexp → String → Bool) (w : World)
    (e : OutputLogEvent) (es : List OutputLogEvent) :
    digestAll MatchString w (e :: es) = digestAll MatchString (digest MatchString w e) es := rfl

theorem digestAll_append (MatchString : Regexp → String → Bool) (w : World)
    (es fs : List OutputLogEvent) :
    digestAll MatchString w (es ++ fs) = digestAll MatchString (digestAll MatchString w es) fs := by
  simp [digestAll, List.foldl_append]

/-- A run of `digest` over a batch appends publisher calls only, all with
non-empty text, changes only the buffer of the stream, and keeps the lines. -/
theorem digestAll_shape (MatchString : Regexp → String → Bool) (es : List OutputLogEvent) :
    ∀ w : World, ∃ recs : List Event,
      (digestAll MatchString w es).log = w.log ++ recs.map Action.publish ∧
      (digestAll MatchString w es).stream =
        { w.stream with Buffer := (digestAll MatchString w es).stream.Buffer } ∧
      (∀ r ∈ recs, r.Message ≠ "") ∧
      ((w.stream.Multiline = none ∨
          ∃ ml, w.stream.Multiline = some ml ∧ (ml.Match = "after" ∨ ml.Match = "before")) →
        concatTexts (recs.map fun r => r.Message) ++ (digestAll MatchString w es).stream.Buffer =
          w.stream.Buffer ++ concatTexts (es.map fun e => e.Message)) := by
  induction es with
  | nil =>
    intro w
    refine ⟨[], by simp [digestAll], rfl, by simp, ?_⟩
    intro _
    simp [digestAll, concatTexts]
  | cons e es ih =>
    intro w
    obtain ⟨r, hstep, hne, hcat⟩ := digest_shape MatchString w e
    obtain ⟨recs, hlog, hstream, hall, hkeep⟩ := ih (digest MatchString w e)
    rw [digestAll_cons]
    refine ⟨r.1.map (recordOf w.stream e) ++ recs, ?_, ?_, ?_, ?_⟩
    · rw [hlog, hstep, stepWorld_log, List.map_append, List.append_assoc]
    · rw [hstream, hstep]
      simp [stepWorld]
    · intro x hx
      rcases List.mem_append.mp hx with hx | hx
      · obtain ⟨t, ht, rfl⟩ := List.mem_map.mp hx
        exact hne t ht
      · exact hall x hx
    · intro hcfg
      have hcfg2 : (digest MatchString w e).stream.Multiline = none ∨
          ∃ ml, (digest MatchString w e).stream.Multiline = some ml ∧
            (ml.Match = "after" ∨ ml.Match = "before") := by
        rw [hstep]
        exact hcfg
      have h1 := hkeep hcfg2
      have h2 := hcat hcfg
      have hb : (digest MatchString w e).stream.Buffer = r.2 := by rw [hstep]; rfl
      rw [hb] at h1
      have hm : (List.map (fun r => r.Message) (List.map (recordOf w.stream e) r.1 ++ recs)) =
          r.1 ++ recs.map fun r => r.Message := by
        simp [recordOf, List.map_map, Function.comp_def]
      rw [hm, concatTexts_append, String.append_assoc, h1, ← String.append_assoc, h2]
      simp only [List.map_cons, concatTexts, List.foldr_cons]
      rw [String.append_assoc]

/-! ## C1: digest against the reference step -/

/-- C1, as stated, fails: in mode before with an empty buffer, an event whose
message is empty and counts as a boundary makes the claimed step publish the
whole (empty) buffer as one record, whereas `digest` publishes nothing. -/
theorem C1_digest_claimedStep_counterexample :
    publishedTexts (digest endMatcher (exampleWorld (some exampleBefore) "")
        { Timestamp := some 1, Message := "" }).log ≠
      publishedTexts (exampleWorld (some exampleBefore) "").log ++
        (claimedStep Mode.before
          (isBoundary endMatcher (exampleWorld (some exampleBefore) "").stream exampleBefore "")
          (exampleWorld (some exampleBefore) "").stream.Buffer "").1 := by
  decide

/-- C1, amended: for every stream state with a multi-line configuration in mode
after or before and every event, `digest` is the reference step of the
specification with boundary = (pattern matches the message) == negate, where a
flush publishes and empties the buffer, or does nothing when the buffer is
empty, in both modes: the stream changes only in its buffer, which becomes the
buffer of the reference step, and the publisher receives exactly the records of
the reference step, in order. -/
theorem C1_digest_refines_referenceStep (MatchString : Regexp → String → Bool) (w : World)
    (ml : Multiline) (streamEvent : OutputLogEvent) (mode : Mode)
    (hml : w.stream.Multiline = some ml) (hmode : ml.Match = mode.name) :
    digest MatchString w streamEvent =
        stepWorld w streamEvent
          (referenceStep mode (MatchString w.stream.MultiRegex streamEvent.Message == ml.Negate)
            w.stream.Buffer streamEvent.Message) ∧
      (digest MatchString w streamEvent).stream.Buffer =
        (referenceStep mode (MatchString w.stream.MultiRegex streamEvent.Message == ml.Negate)
          w.stream.Buffer streamEvent.Message).2 ∧
      publishedTexts (digest MatchString w streamEvent).log =
        publishedTexts w.log ++
          (referenceStep mode (MatchString w.stream.MultiRegex streamEvent.Message == ml.Negate)
            w.stream.Buffer streamEvent.Message).1 := by
  have h := digest_eq_stepWorld MatchString w ml streamEvent mode hml hmode
  simp only [isBoundary] at h
  refine ⟨h, ?_, ?_⟩
  · rw [h]; rfl
  · rw [h, publishedTexts_stepWorld]

/-- C1, amended, at a concrete input: mode before, pattern `^END$`, negate
false, the buffer holding x and the event y, a boundary: xy is published and the
buffer is left empty. -/
theorem C1_digest_refines_referenceStep_witness :
    (exampleWorld (some exampleBefore) "x").stream.Multiline = some exampleBefore ∧
      exampleBefore.Match = Mode.before.name ∧
      (digest endMatcher (exampleWorld (some exampleBefore) "x")
        { Timestamp := some 1, Message := "y" }).stream.Buffer = "" ∧
      publishedTexts (digest endMatcher (exampleWorld (some exampleBefore) "x")
        { Timestamp := some 1, Message := "y" }).log = ["xy"] :=
  ⟨rfl, rfl,
    (C1_digest_refines_referenceStep endMatcher (exampleWorld (some exampleBefore) "x")
      exampleBefore { Timestamp := some 1, Message := "y" } Mode.before rfl rfl).2.1.trans
      (by decide),
    (C1_digest_refines_referenceStep endMatcher (exampleWorld (some exampleBefore) "x")
      exampleBefore { Timestamp := some 1, Message := "y" } Mode.before rfl rfl).2.2.trans
      (by decide)⟩

/-! ## C2: the END example -/

/-- C2, as stated, fails: with mode after, pattern `^END$` and negate false, the
four events do not leave one published record ab and the buffer ENDc. -/
theorem C2_after_END_counterexample :
    ¬ (publishedTexts (digestAll endMatcher (exampleWorld (some (exampleAfter false)) "")
          exampleEvents).log = ["ab"] ∧
        (digestAll endMatcher (exampleWorld (some (exampleAfter false)) "")
          exampleEvents).stream.Buffer = "ENDc") := by
  decide

/-- C2, amended: with mode after and a pattern that matches END and none of a,
b, c, feeding `digest` the events a, b, END, c from an empty buffer publishes,
when negate is false, exactly two records, a (on the arrival of b) and bEND (on
the arrival of c), and leaves the buffer holding c; when negate is true it
publishes exactly one record, ab (on the arrival of END), and leaves the buffer
holding ENDc. -/
theorem C2_after_END_example (MatchString : Regexp → String → Bool) (w : World)
    (negate : Bool) (t1 t2 t3 t4 : Option Int)
    (hml : w.stream.Multiline = some { Pattern := "^END$", Negate := negate, Match := "after" })
    (hbuf : w.stream.Buffer = "")
    (hEND : MatchString w.stream.MultiRegex "END" = true)
    (ha : MatchString w.stream.MultiRegex "a" = false)
    (hb : MatchString w.stream.MultiRegex "b" = false)
    (hc : MatchString w.stream.MultiRegex "c" = false) :
    digestAll MatchString w
        [{ Timestamp := t1, Message := "a" }, { Timestamp := t2, Message := "b" },
         { Timestamp := t3, Message := "END" }, { Timestamp := t4, Message := "c" }] =
      if negate = true then
        { stream := { w.stream with Buffer := "ENDc" }
          log := w.log ++
            [Action.publish
              { Stream := w.stream.Name, Timestamp := Int64Value t3, Message := "ab" }] }
      else
        { stream := { w.stream with Buffer := "c" }
          log := w.log ++
            [Action.publish
              { Stream := w.stream.Name, Timestamp := Int64Value t2, Message := "a" },
             Action.publish
              { Stream := w.stream.Name, Timestamp := Int64Value t4, Message := "bEND" }] } := by
  obtain ⟨s, log⟩ := w
  simp only at hml hbuf hEND ha hb hc
  have e1 : ("" : String) ++ "a" = "a" := by decide
  have e2 : ("a" : String) ++ "b" = "ab" := by decide
  have e3 : ("" : String) ++ "END" = "END" := by decide
  have e4 : ("END" : String) ++ "c" = "ENDc" := by decide
  have e5 : ("" : String) ++ "b" = "b" := by decide
  have e6 : ("b" : String) ++ "END" = "bEND" := by decide
  have e7 : ("" : String) ++ "c" = "c" := by decide
  have n1 : ("a" : String).length ≠ 0 := by decide
  have n2 : ("ab" : String).length ≠ 0 := by decide
  have n3 : ("bEND" : String).length ≠ 0 := by decide
  have n0 : ("" : String).length = 0 := by decide
  cases negate with
  | true =>
    simp [digestAll, digest, publish, WriteString, hml, hbuf, hEND, ha, hb, hc,
      e1, e2, e3, e4, n2, n0]
  | false =>
    simp [digestAll, digest, publish, WriteString, hml, hbuf, hEND, ha, hb, hc,
      e1, e5, e6, e7, n1, n3, n0]

/-- C2, amended, at the matcher and the world of the example with negate false:
the records a and bEND are published and the buffer holds c. -/
theorem C2_after_END_example_witness :
    (exampleWorld (some (exampleAfter false)) "").stream.Buffer = "" ∧
      endMatcher (exampleWorld (some (exampleAfter false)) "").stream.MultiRegex "END" = true ∧
      endMatcher (exampleWorld (some (exampleAfter false)) "").stream.MultiRegex "a" = false ∧
      endMatcher (exampleWorld (some (exampleAfter false)) "").stream.MultiRegex "b" = false ∧
      endMatcher (exampleWorld (some (exampleAfter false)) "").stream.MultiRegex "c" = false ∧
      digestAll endMatcher (exampleWorld (some (exampleAfter false)) "") exampleEvents =
        { stream := (exampleWorld (some (exampleAfter false)) "c").stream
          log :=
            [Action.publish { Stream := "stream", Timestamp := 2, Message := "a" },
             Action.publish { Stream := "stream", Timestamp := 4, Message := "bEND" }] } :=
  ⟨rfl, by decide, by decide, by decide, by decide,
    (C2_after_END_example endMatcher (exampleWorld (some (exampleAfter false)) "") false
      (some 1) (some 2) (some 3) (some 4) rfl rfl (by decide) (by decide) (by decide)
      (by decide)).trans (by decide)⟩

/-! ## C3: no multi-line configuration -/

/-- C3, as stated, fails: without a multi-line configuration and from an empty
buffer, one event whose message is empty publishes no record, not one. -/
theorem C3_one_record_per_event_counterexample :
    (digestAll endMatcher (exampleWorld none "") [{ Timestamp := some 1, Message := "" }]).log ≠
      (exampleWorld none "").log ++
        ([{ Timestamp := some 1, Message := "" }] : List OutputLogEvent).map fun e =>
          Action.publish (recordOf (exampleWorld none "").stream e e.Message) := by
  decide

/-- C3, amended: with no multi-line configuration and an empty starting buffer,
for every sequence of events `digest` publishes exactly one record for each
event whose message is not empty and none for an event whose message is empty,
in the order of the events, each record carrying its event's message as text
and its event's timestamp; nothing else changes, and the buffer is empty after
every event. -/
theorem C3_none_publishes_each_nonempty_event (MatchString : Regexp → String → Bool)
    (es : List OutputLogEvent) (w : World)
    (hml : w.stream.Multiline = none) (hbuf : w.stream.Buffer = "") :
    digestAll MatchString w es =
        { stream := w.stream
          log := w.log ++ (es.filter fun e => decide (e.Message ≠ "")).map fun e =>
            Action.publish (recordOf w.stream e e.Message) } ∧
      ∀ n : Nat, (digestAll MatchString w (es.take n)).stream.Buffer = "" := by
  have key : ∀ (es : List OutputLogEvent) (w : World),
      w.stream.Multiline = none → w.stream.Buffer = "" →
      digestAll MatchString w es =
        { stream := w.stream
          log := w.log ++ (es.filter fun e => decide (e.Message ≠ "")).map fun e =>
            Action.publish (recordOf w.stream e e.Message) } := by
    intro es
    induction es with
    | nil => intro w _ _; simp [digestAll]
    | cons e es ih =>
      intro w hml hbuf
      rw [digestAll_cons, digest_none MatchString w e hml, hbuf, String.empty_append]
      obtain ⟨s, log⟩ := w
      simp only at hml hbuf
      have hs : ({ s with Buffer := "" } : Stream) = s := by
        cases s
        simp only at hbuf
        subst hbuf
        rfl
      by_cases he : e.Message = ""
      · have hw : stepWorld { stream := s, log := log } e (flushRef e.Message) =
            { stream := s, log := log } := by
          simp [stepWorld, flushRef, he, hs]
        rw [hw, ih _ hml hbuf]
        simp [he]
      · have hw : stepWorld { stream := s, log := log } e (flushRef e.Message) =
            { stream := s, log := log ++ [Action.publish (recordOf s e e.Message)] } := by
          simp [stepWorld, flushRef, he, recordOf, hs]
        rw [hw, ih _ hml hbuf]
        simp [he, recordOf]
  refine ⟨key es w hml hbuf, ?_⟩
  intro n
  rw [key (es.take n) w hml hbuf]
  exact hbuf

/-- C3, amended, at a concrete input: the events a, an empty message, b. -/
theorem C3_none_publishes_each_nonempty_event_witness :
    (exampleWorld none "").stream.Multiline = none ∧
      (exampleWorld none "").stream.Buffer = "" ∧
      digestAll endMatcher (exampleWorld none "")
          [{ Timestamp := some 1, Message := "a" }, { Timestamp := some 2, Message := "" },
           { Timestamp := some 3, Message := "b" }] =
        { stream := (exampleWorld none "").stream
          log :=
            [Action.publish { Stream := "stream", Timestamp := 1, Message := "a" },
             Action.publish { Stream := "stream", Timestamp := 3, Message := "b" }] } :=
  ⟨rfl, rfl,
    (C3_none_publishes_each_nonempty_event endMatcher
      [{ Timestamp := some 1, Message := "a" }, { Timestamp := some 2, Message := "" },
       { Timestamp := some 3, Message := "b" }] (exampleWorld none "") rfl rfl).1.trans
      (by decide)⟩

/-! ## C4: no empty record, empty buffer after a publish -/

/-- A step of `digest` that called the publisher emptied the buffer at the call:
afterwards the buffer holds what was appended after the call, the message in
mode after and nothing otherwise. -/
theorem digest_buffer_of_published (MatchString : Regexp → String → Bool) (w : World)
    (e : OutputLogEvent) (hpub : (digest MatchString w e).log ≠ w.log) :
    (digest MatchString w e).stream.Buffer =
      match w.stream.Multiline with
      | none => ""
      | some ml => if ml.Match = "after" then e.Message else "" := by
  have hflush : ∀ b : String, (flushRef b).2 = "" := by
    intro b
    unfold flushRef
    by_cases hb : b = "" <;> simp [hb]
  cases hml : w.stream.Multiline with
  | none =>
    rw [digest_none MatchString w e hml]
    exact hflush _
  | some ml =>
    simp only
    by_cases ha : ml.Match = "after"
    · have hstep := digest_eq_stepWorld MatchString w ml e Mode.after hml ha
      rw [hstep] at hpub ⊢
      rw [if_pos ha]
      by_cases hb : isBoundary MatchString w.stream ml e.Message = true
      · simp [stepWorld, referenceStep, hb, hflush]
      · exact absurd (by simp [stepWorld, referenceStep, hb]) hpub
    · rw [if_neg ha]
      by_cases hbf : ml.Match = "before"
      · have hstep := digest_eq_stepWorld MatchString w ml e Mode.before hml hbf
        rw [hstep] at hpub ⊢
        by_cases hb : isBoundary MatchString w.stream ml e.Message = true
        · simp [stepWorld, referenceStep, hb, hflush]
        · exact absurd (by simp [stepWorld, referenceStep, hb]) hpub
      · exact absurd (by rw [digest_other MatchString w ml e hml ha hbf]) hpub

/-- C4: `publish` on an empty buffer makes no publisher call and leaves the
stream unchanged; after `publish` the buffer is empty, in particular right
after every publisher call, so that a step of `digest` that published leaves in
the buffer only what it appended after the call (the message in mode after,
nothing otherwise); and for every configuration, every starting buffer and
every sequence of events, `digest` only adds publisher calls to the log, each
with a non-empty text. -/
theorem C4_publish_never_empty (MatchString : Regexp → String → Bool) (w : World)
    (event : Event) (es : List OutputLogEvent) :
    (w.stream.Buffer = "" → publish w event = w) ∧
      (w.stream.Buffer ≠ "" →
        publish w event =
          { stream := { w.stream with Buffer := "" }
            log := w.log ++ [Action.publish { event with Message := w.stream.Buffer }] }) ∧
      (publish w event).stream.Buffer = "" ∧
      (∀ e : OutputLogEvent, (digest MatchString w e).log ≠ w.log →
        (digest MatchString w e).stream.Buffer =
          match w.stream.Multiline with
          | none => ""
          | some ml => if ml.Match = "after" then e.Message else "") ∧
      ∃ recs : List Event,
        (digestAll MatchString w es).log = w.log ++ recs.map Action.publish ∧
        ∀ r ∈ recs, r.Message ≠ "" := by
  refine ⟨publish_of_empty w event, publish_of_nonempty w event, publish_buffer w event,
    digest_buffer_of_published MatchString w, ?_⟩
  obtain ⟨recs, hlog, _, hall, _⟩ := digestAll_shape MatchString es w
  exact ⟨recs, hlog, hall⟩

/-- C4 at a concrete input: `publish` on the empty buffer of the example. -/
theorem C4_publish_never_empty_witness :
    (exampleWorld none "").stream.Buffer = "" ∧
      publish (exampleWorld none "") { Stream := "stream", Timestamp := 1, Message := "" } =
        exampleWorld none "" :=
  ⟨rfl,
    (C4_publish_never_empty endMatcher (exampleWorld none "")
      { Stream := "stream", Timestamp := 1, Message := "" } exampleEvents).1 rfl⟩

/-! ## C6: no line is lost, duplicated or reordered -/

/-- C6: for a configuration without multi-line, in mode after or in mode before,
every starting buffer and every sequence of events digested in order, the log
grows by publisher calls only, and the texts of the published records
concatenated in publish order, followed by the final buffer, are the starting
buffer followed by the messages of the events in order. -/
theorem C6_lines_preserved (MatchString : Regexp → String → Bool) (w : World)
    (es : List OutputLogEvent)
    (hcfg : w.stream.Multiline = none ∨
      ∃ ml, w.stream.Multiline = some ml ∧ (ml.Match = "after" ∨ ml.Match = "before")) :
    ∃ recs : List Event,
      (digestAll MatchString w es).log = w.log ++ recs.map Action.publish ∧
      concatTexts (recs.map fun r => r.Message) ++ (digestAll MatchString w es).stream.Buffer =
        w.stream.Buffer ++ concatTexts (es.map fun e => e.Message) := by
  obtain ⟨recs, hlog, _, _, hkeep⟩ := digestAll_shape MatchString es w
  exact ⟨recs, hlog, hkeep hcfg⟩

/-- C6 at a concrete input: mode after, negate true, buffer holding x, the four
events of the example. -/
theorem C6_lines_preserved_witness :
    ((exampleWorld (some (exampleAfter true)) "x").stream.Multiline = none ∨
        ∃ ml, (exampleWorld (some (exampleAfter true)) "x").stream.Multiline = some ml ∧
          (ml.Match = "after" ∨ ml.Match = "before")) ∧
      ∃ recs : List Event,
        (digestAll endMatcher (exampleWorld (some (exampleAfter true)) "x") exampleEvents).log =
          (exampleWorld (some (exampleAfter true)) "x").log ++ recs.map Action.publish ∧
        concatTexts (recs.map fun r => r.Message) ++
            (digestAll endMatcher (exampleWorld (some (exampleAfter true)) "x")
              exampleEvents).stream.Buffer =
          (exampleWorld (some (exampleAfter true)) "x").stream.Buffer ++
            concatTexts (exampleEvents.map fun e => e.Message) :=
  ⟨Or.inr ⟨exampleAfter true, rfl, Or.inl rfl⟩,
    C6_lines_preserved endMatcher (exampleWorld (some (exampleAfter true)) "x") exampleEvents
      (Or.inr ⟨exampleAfter true, rfl, Or.inl rfl⟩)⟩

/-! ## C5: the timestamp of a record in mode after -/

/-- C5, as stated, fails: in mode after with negate true, the events a, b, END, c
(timestamps 1 to 4) publish the record ab with the timestamp 3 of END, the
event that triggered the flush, whereas the record's starting event a has
timestamp 1. -/
theorem C5_after_start_timestamp_counterexample :
    (publishedEvents (digestAll endMatcher (exampleWorld (some (exampleAfter true)) "")
        exampleEvents).log).map (fun r => r.Timestamp) = [3] ∧
      (referenceAfterRun
        (isBoundary endMatcher (exampleWorld (some (exampleAfter true)) "").stream
          (exampleAfter true))
        (exampleWorld (some (exampleAfter true)) "").stream.Name exampleEvents).map
          (fun r => r.Timestamp) = [1] ∧
      publishedEvents (digestAll endMatcher (exampleWorld (some (exampleAfter true)) "")
        exampleEvents).log ≠
      referenceAfterRun
        (isBoundary endMatcher (exampleWorld (some (exampleAfter true)) "").stream
          (exampleAfter true))
        (exampleWorld (some (exampleAfter true)) "").stream.Name exampleEvents := by
  decide

/-- C5, amended: in mode after, for every sequence of events, each published
record carries the timestamp of the event whose arrival triggered the flush:
the record was published when some event of the sequence, a boundary, arrived
at a non-empty buffer; its text is that buffer, the lines accumulated before
the event, and its timestamp is the timestamp of that event. -/
theorem C5_after_timestamp_is_trigger (MatchString : Regexp → String → Bool)
    (es : List OutputLogEvent) (w : World) (ml : Multiline)
    (hml : w.stream.Multiline = some ml) (hmode : ml.Match = "after") :
    ∃ recs : List Event,
      (digestAll MatchString w es).log = w.log ++ recs.map Action.publish ∧
      ∀ r ∈ recs, ∃ (pre : List OutputLogEvent) (e : OutputLogEvent) (post : List OutputLogEvent),
        es = pre ++ e :: post ∧
        (MatchString w.stream.MultiRegex e.Message == ml.Negate) = true ∧
        (digestAll MatchString w pre).stream.Buffer ≠ "" ∧
        r.Stream = w.stream.Name ∧
        r.Message = (digestAll MatchString w pre).stream.Buffer ∧
        r.Timestamp = Int64Value e.Timestamp := by
  induction es generalizing w with
  | nil => exact ⟨[], by simp [digestAll], by simp⟩
  | cons e es ih =>
    have hstep := digest_eq_stepWorld MatchString w ml e Mode.after hml hmode
    have hml1 : (digest MatchString w e).stream.Multiline = some ml := by
      rw [hstep]; exact hml
    have hre : (digest MatchString w e).stream.MultiRegex = w.stream.MultiRegex := by
      rw [hstep]; rfl
    have hname : (digest MatchString w e).stream.Name = w.stream.Name := by
      rw [hstep]; rfl
    obtain ⟨recs, hlog, hall⟩ := ih (digest MatchString w e) hml1
    rw [digestAll_cons]
    refine ⟨(referenceStep Mode.after (isBoundary MatchString w.stream ml e.Message)
        w.stream.Buffer e.Message).1.map (recordOf w.stream e) ++ recs, ?_, ?_⟩
    · rw [hlog, hstep, stepWorld_log, List.map_append, List.append_assoc]
    · intro r hr
      rcases List.mem_append.mp hr with hr | hr
      · obtain ⟨t, ht, rfl⟩ := List.mem_map.mp hr
        refine ⟨[], e, es, rfl, ?_⟩
        by_cases hb : isBoundary MatchString w.stream ml e.Message = true
        · simp only [referenceStep, hb, if_true] at ht
          have hne := flushRef_nonempty _ t ht
          have ht2 : t = w.stream.Buffer := by
            unfold flushRef at ht
            by_cases he : w.stream.Buffer = ""
            · simp [he] at ht
            · simpa [he] using ht
          subst ht2
          exact ⟨hb, hne, rfl, rfl, rfl⟩
        · simp [referenceStep, hb] at ht
      · obtain ⟨pre, e2, post, hes, hb, hne, h1, h2, h3⟩ := hall r hr
        refine ⟨e :: pre, e2, post, by rw [hes]; rfl, ?_, ?_, ?_, ?_, h3⟩
        · rw [← hre]; exact hb
        · rw [digestAll_cons]; exact hne
        · rw [h1, hname]
        · rw [digestAll_cons]; exact h2

/-- C5, amended, at a concrete input: mode after, negate true, the four events
of the example from an empty buffer. -/
theorem C5_after_timestamp_is_trigger_witness :
    (exampleWorld (some (exampleAfter true)) "").stream.Multiline = some (exampleAfter true) ∧
      (exampleAfter true).Match = "after" ∧
      ∃ recs : List Event,
        (digestAll endMatcher (exampleWorld (some (exampleAfter true)) "") exampleEvents).log =
          (exampleWorld (some (exampleAfter true)) "").log ++ recs.map Action.publish ∧
        ∀ r ∈ recs, ∃ (pre : List OutputLogEvent) (e : OutputLogEvent)
            (post : List OutputLogEvent),
          exampleEvents = pre ++ e :: post ∧
          (endMatcher (exampleWorld (some (exampleAfter true)) "").stream.MultiRegex e.Message ==
            (exampleAfter true).Negate) = true ∧
          (digestAll endMatcher (exampleWorld (some (exampleAfter true)) "")
            pre).stream.Buffer ≠ "" ∧
          r.Stream = (exampleWorld (some (exampleAfter true)) "").stream.Name ∧
          r.Message =
            (digestAll endMatcher (exampleWorld (some (exampleAfter true)) "")
              pre).stream.Buffer ∧
          r.Timestamp = Int64Value e.Timestamp :=
  ⟨rfl, rfl,
    C5_after_timestamp_is_trigger endMatcher exampleEvents
      (exampleWorld (some (exampleAfter true)) "") (exampleAfter true) rfl rfl⟩

/-! ## C7 and C8: Next -/

theorem registryWrites_append (l1 l2 : List Action) :
    registryWrites (l1 ++ l2) = registryWrites l1 ++ registryWrites l2 := by
  simp [registryWrites, List.filterMap_append]

theorem registryWrites_publish (recs : List Event) :
    registryWrites (recs.map Action.publish) = [] := by
  induction recs with
  | nil => rfl
  | cons r rs ih =>
    simp only [List.map_cons]
    rw [← ih]
    rfl

theorem publishedEvents_append (l1 l2 : List Action) :
    publishedEvents (l1 ++ l2) = publishedEvents l1 ++ publishedEvents l2 := by
  simp [publishedEvents, List.filterMap_append]

theorem Next_of_error (MatchString : Regexp → String → Bool)
    (GetLogEvents : GetLogEventsInput → Except String GetLogEventsOutput)
    (WriteStreamInfo : Stream → Option String) (w : World) (err : String)
    (hfetch : GetLogEvents w.stream.Params = Except.error err) :
    Next MatchString GetLogEvents WriteStreamInfo w =
      ({ stream := w.stream, log := w.log ++ [Action.fetch w.stream.Params] }, some err) := by
  simp [Next, hfetch]

theorem Next_of_empty (MatchString : Regexp → String → Bool)
    (GetLogEvents : GetLogEventsInput → Except String GetLogEventsOutput)
    (WriteStreamInfo : Stream → Option String) (w : World) (output : GetLogEventsOutput)
    (hfetch : GetLogEvents w.stream.Params = Except.ok output) (hev : output.Events = []) :
    Next MatchString GetLogEvents WriteStreamInfo w =
      ({ stream := w.stream, log := w.log ++ [Action.fetch w.stream.Params] }, none) := by
  simp [Next, hfetch, hev]

theorem Next_of_nonempty (MatchString : Regexp → String → Bool)
    (GetLogEvents : GetLogEventsInput → Except String GetLogEventsOutput)
    (WriteStreamInfo : Stream → Option String) (w : World) (output : GetLogEventsOutput)
    (hfetch : GetLogEvents w.stream.Params = Except.ok output) (hev : output.Events ≠ []) :
    Next MatchString GetLogEvents WriteStreamInfo w =
      ({ stream :=
           setNextToken
             (digestAll MatchString
               { stream := w.stream, log := w.log ++ [Action.fetch w.stream.Params] }
               output.Events).stream output.NextForwardToken
         log :=
           (digestAll MatchString
             { stream := w.stream, log := w.log ++ [Action.fetch w.stream.Params] }
             output.Events).log ++
           [Action.writeInfo
             (setNextToken
               (digestAll MatchString
                 { stream := w.stream, log := w.log ++ [Action.fetch w.stream.Params] }
                 output.Events).stream output.NextForwardToken)] },
        WriteStreamInfo
          (setNextToken
            (digestAll MatchString
              { stream := w.stream, log := w.log ++ [Action.fetch w.stream.Params] }
              output.Events).stream output.NextForwardToken)) := by
  have hlen : ¬ output.Events.length = 0 := fun h => hev (List.length_eq_zero.mp h)
  simp only [Next, hfetch, hlen, if_false]
  cases hW : WriteStreamInfo
    (setNextToken
      (digestAll MatchString
        { stream := w.stream, log := w.log ++ [Action.fetch w.stream.Params] }
        output.Events).stream output.NextForwardToken) <;> rfl

/-- C7: if the fetch returns an error, `Next` returns that error; the stream,
with its position token and its buffer, is unchanged, and the only action is
the fetch itself: nothing is published and nothing is written to the
registry. -/
theorem C7_Next_fetch_error (MatchString : Regexp → String → Bool)
    (GetLogEvents : GetLogEventsInput → Except String GetLogEventsOutput)
    (WriteStreamInfo : Stream → Option String) (w : World) (err : String)
    (hfetch : GetLogEvents w.stream.Params = Except.error err) :
    Next MatchString GetLogEvents WriteStreamInfo w =
        ({ stream := w.stream, log := w.log ++ [Action.fetch w.stream.Params] }, some err) ∧
      (Next MatchString GetLogEvents WriteStreamInfo w).2 = some err ∧
      (Next MatchString GetLogEvents WriteStreamInfo w).1.stream.Params.NextToken =
        w.stream.Params.NextToken ∧
      (Next MatchString GetLogEvents WriteStreamInfo w).1.stream.Buffer = w.stream.Buffer ∧
      registryWrites (Next MatchString GetLogEvents WriteStreamInfo w).1.log =
        registryWrites w.log ∧
      publishedEvents (Next MatchString GetLogEvents WriteStreamInfo w).1.log =
        publishedEvents w.log := by
  rw [Next_of_error MatchString GetLogEvents WriteStreamInfo w err hfetch]
  refine ⟨rfl, rfl, rfl, rfl, ?_, ?_⟩
  · simp [registryWrites_append, registryWrites]
  · simp [publishedEvents_append, publishedEvents]

/-- C7 at a concrete input: a client that fails on every call. -/
theorem C7_Next_fetch_error_witness :
    Next endMatcher (fun _ => Except.error "fetch failed") (fun _ => none)
        (exampleWorld none "x") =
      ({ stream := (exampleWorld none "x").stream
         log := [Action.fetch (exampleWorld none "x").stream.Params] }, some "fetch failed") :=
  (C7_Next_fetch_error endMatcher (fun _ => Except.error "fetch failed") (fun _ => none)
    (exampleWorld none "x") "fetch failed" rfl).1

/-- C8: after a successful fetch, an empty batch makes `Next` return nil with
the stream unchanged and no registry write; a non-empty batch makes it digest
the events in order, set the position token to the batch's continuation token,
write the stream so updated to the registry exactly once, as the last action,
and return the result of that write. -/
theorem C8_Next_success (MatchString : Regexp → String → Bool)
    (GetLogEvents : GetLogEventsInput → Except String GetLogEventsOutput)
    (WriteStreamInfo : Stream → Option String) (w : World) (output : GetLogEventsOutput)
    (hfetch : GetLogEvents w.stream.Params = Except.ok output) :
    (output.Events = [] →
        Next MatchString GetLogEvents WriteStreamInfo w =
          ({ stream := w.stream, log := w.log ++ [Action.fetch w.stream.Params] }, none) ∧
        registryWrites (Next MatchString GetLogEvents WriteStreamInfo w).1.log =
          registryWrites w.log) ∧
      (output.Events ≠ [] →
        Next MatchString GetLogEvents WriteStreamInfo w =
          ({ stream :=
               setNextToken
                 (digestAll MatchString
                   { stream := w.stream, log := w.log ++ [Action.fetch w.stream.Params] }
                   output.Events).stream output.NextForwardToken
             log :=
               (digestAll MatchString
                 { stream := w.stream, log := w.log ++ [Action.fetch w.stream.Params] }
                 output.Events).log ++
               [Action.writeInfo
                 (setNextToken
                   (digestAll MatchString
                     { stream := w.stream, log := w.log ++ [Action.fetch w.stream.Params] }
                     output.Events).stream output.NextForwardToken)] },
            WriteStreamInfo
              (setNextToken
                (digestAll MatchString
                  { stream := w.stream, log := w.log ++ [Action.fetch w.stream.Params] }
                  output.Events).stream output.NextForwardToken)) ∧
        (Next MatchString GetLogEvents WriteStreamInfo w).1.stream.Params.NextToken =
          output.NextForwardToken ∧
        registryWrites (Next MatchString GetLogEvents WriteStreamInfo w).1.log =
          registryWrites w.log ++ [(Next MatchString GetLogEvents WriteStreamInfo w).1.stream]) := by
  constructor
  · intro hev
    rw [Next_of_empty MatchString GetLogEvents WriteStreamInfo w output hfetch hev]
    refine ⟨rfl, ?_⟩
    simp [registryWrites_append, registryWrites]
  · intro hev
    rw [Next_of_nonempty MatchString GetLogEvents WriteStreamInfo w output hfetch hev]
    refine ⟨rfl, rfl, ?_⟩
    obtain ⟨recs, hlog, _, _, _⟩ := digestAll_shape MatchString output.Events
      { stream := w.stream, log := w.log ++ [Action.fetch w.stream.Params] }
    simp only [hlog]
    simp [registryWrites_append, registryWrites_publish, registryWrites]

/-- C8 at a concrete input: a batch of the four events of the example, no
multi-line configuration, a registry whose write succeeds. -/
theorem C8_Next_success_witness :
    Next endMatcher
        (fun _ => Except.ok { Events := exampleEvents, NextForwardToken := some "f/1" })
        (fun _ => none) (exampleWorld none "") =
      ({ stream := setNextToken (exampleWorld none "").stream (some "f/1")
         log :=
           [Action.fetch (exampleWorld none "").stream.Params,
            Action.publish { Stream := "stream", Timestamp := 1, Message := "a" },
            Action.publish { Stream := "stream", Timestamp := 2, Message := "b" },
            Action.publish { Stream := "stream", Timestamp := 3, Message := "END" },
            Action.publish { Stream := "stream", Timestamp := 4, Message := "c" },
            Action.writeInfo (setNextToken (exampleWorld none "").stream (some "f/1"))] },
        none) :=
  (((C8_Next_success endMatcher
    (fun _ => Except.ok { Events := exampleEvents, NextForwardToken := some "f/1" })
    (fun _ => none) (exampleWorld none "")
    { Events := exampleEvents, NextForwardToken := some "f/1" } rfl).2 (by decide)).1).trans
    (by decide)

/-! ## C9: the group's refresh -/

theorem isFresh_iff (now horizon : Int) (entry : LogStream) :
    isFresh now horizon entry = true ↔
      ∃ t, entry.LastEventTimestamp = some t ∧ now - t ≤ horizon := by
  unfold isFresh
  cases h : entry.LastEventTimestamp with
  | none => simp
  | some t => simp

theorem refreshEntry_horizon (now : Int) (g : Group) (entry : LogStream) :
    (refreshEntry now g entry).StreamLastEventHorizon = g.StreamLastEventHorizon := by
  unfold refreshEntry
  split
  · rfl
  · split
    · rfl
    · split <;> rfl

theorem refreshEntry_mem (now : Int) (g : Group) (entry : LogStream) (name : String) :
    name ∈ (refreshEntry now g entry).Streams ↔
      name ∈ g.Streams ∨
        (entry.LogStreamName = name ∧ isFresh now g.StreamLastEventHorizon entry = true) := by
  unfold refreshEntry isFresh
  cases h : entry.LastEventTimestamp with
  | none => simp
  | some t =>
    simp only
    by_cases hold : now - t > g.StreamLastEventHorizon
    · have : ¬ now - t ≤ g.StreamLastEventHorizon := by omega
      simp [hold, this]
    · have hle : now - t ≤ g.StreamLastEventHorizon := by omega
      by_cases hin : entry.LogStreamName ∈ g.Streams
      · simp only [hold, if_false, hin, if_true, hle, decide_True, and_true]
        constructor
        · intro hm; exact Or.inl hm
        · intro hm
          rcases hm with hm | hm
          · exact hm
          · rw [← hm]; exact hin
      · simp only [hold, if_false, hin, hle, decide_True, and_true, List.mem_append,
          List.mem_singleton]
        constructor
        · intro hm
          rcases hm with hm | hm
          · exact Or.inl hm
          · exact Or.inr hm.symm
        · intro hm
          rcases hm with hm | hm
          · exact Or.inl hm
          · exact Or.inr hm.symm

theorem refreshEntry_nodup (now : Int) (g : Group) (entry : LogStream)
    (h : g.Streams.Nodup) : (refreshEntry now g entry).Streams.Nodup := by
  unfold refreshEntry
  split
  · exact h
  · split
    · exact h
    · split
      · exact h
      · rename_i hin
        simp only
        rw [List.nodup_append]
        refine ⟨h, List.nodup_singleton _, ?_⟩
        intro a ha hb
        rw [List.mem_singleton] at hb
        subst hb
        exact hin ha

theorem RefreshStreams_horizon (now : Int) (listing : List LogStream) (g : Group) :
    (RefreshStreams now listing g).StreamLastEventHorizon = g.StreamLastEventHorizon := by
  induction listing generalizing g with
  | nil => rfl
  | cons e es ih =>
    show (RefreshStreams now es (refreshEntry now g e)).StreamLastEventHorizon = _
    rw [ih, refreshEntry_horizon]

theorem RefreshStreams_mem (now : Int) (listing : List LogStream) (g : Group) (name : String) :
    name ∈ (RefreshStreams now listing g).Streams ↔
      name ∈ g.Streams ∨
        ∃ entry ∈ listing, entry.LogStreamName = name ∧
          isFresh now g.StreamLastEventHorizon entry = true := by
  induction listing generalizing g with
  | nil => simp [RefreshStreams]
  | cons e es ih =>
    show name ∈ (RefreshStreams now es (refreshEntry now g e)).Streams ↔ _
    rw [ih, refreshEntry_mem, refreshEntry_horizon]
    constructor
    · intro h
      rcases h with (h | h) | ⟨entry, hmem, hn, hf⟩
      · exact Or.inl h
      · exact Or.inr ⟨e, List.mem_cons_self _ _, h.1, h.2⟩
      · exact Or.inr ⟨entry, List.mem_cons_of_mem _ hmem, hn, hf⟩
    · intro h
      rcases h with h | ⟨entry, hmem, hn, hf⟩
      · exact Or.inl (Or.inl h)
      · rcases List.mem_cons.mp hmem with heq | hmem
        · subst heq
          exact Or.inl (Or.inr ⟨hn, hf⟩)
        · exact Or.inr ⟨entry, hmem, hn, hf⟩

theorem RefreshStreams_nodup (now : Int) (listing : List LogStream) (g : Group)
    (h : g.Streams.Nodup) : (RefreshStreams now listing g).Streams.Nodup := by
  induction listing generalizing g with
  | nil => exact h
  | cons e es ih =>
    show (RefreshStreams now es (refreshEntry now g e)).Streams.Nodup
    exact ih _ (refreshEntry_nodup now g e h)

/-- C9: after `RefreshStreams` on a listing, a name is in the live set exactly
when it was already live or the listing has an entry of that name whose
last-event timestamp is defined and not older than the horizon; a name that was
not live and has only entries that are undefined or too old is not added,
whatever else the listing holds; and from a live set with unique keys the live
set keeps unique keys, each fresh name being present exactly once. -/
theorem C9_RefreshStreams_live_set (now : Int) (listing : List LogStream) (g : Group) :
    (∀ name : String,
        name ∈ (RefreshStreams now listing g).Streams ↔
          name ∈ g.Streams ∨
            ∃ entry ∈ listing, entry.LogStreamName = name ∧
              ∃ t, entry.LastEventTimestamp = some t ∧ now - t ≤ g.StreamLastEventHorizon) ∧
      (∀ name : String, name ∉ g.Streams →
        (∀ entry ∈ listing, entry.LogStreamName = name →
          entry.LastEventTimestamp = none ∨
            ∃ t, entry.LastEventTimestamp = some t ∧ now - t > g.StreamLastEventHorizon) →
        name ∉ (RefreshStreams now listing g).Streams) ∧
      (g.Streams.Nodup →
        (RefreshStreams now listing g).Streams.Nodup ∧
        ∀ entry ∈ listing, isFresh now g.StreamLastEventHorizon entry = true →
          (RefreshStreams now listing g).Streams.count entry.LogStreamName = 1) := by
  have hiff : ∀ name : String,
      name ∈ (RefreshStreams now listing g).Streams ↔
        name ∈ g.Streams ∨
          ∃ entry ∈ listing, entry.LogStreamName = name ∧
            ∃ t, entry.LastEventTimestamp = some t ∧ now - t ≤ g.StreamLastEventHorizon := by
    intro name
    rw [RefreshStreams_mem]
    simp only [isFresh_iff]
  refine ⟨hiff, ?_, ?_⟩
  · intro name hnot hstale hmem
    rcases (hiff name).mp hmem with h | ⟨entry, hin, hn, t, ht, hle⟩
    · exact hnot h
    · rcases hstale entry hin hn with h | ⟨t2, ht2, hgt⟩
      · rw [h] at ht; cases ht
      · rw [ht2] at ht
        cases ht
        omega
  · intro hnd
    have hnd2 := RefreshStreams_nodup now listing g hnd
    refine ⟨hnd2, ?_⟩
    intro entry hin hf
    apply List.count_eq_one_of_mem hnd2
    exact (RefreshStreams_mem now listing g entry.LogStreamName).mpr (Or.inr ⟨entry, hin, rfl, hf⟩)

/-- C9 at a concrete input: the listing of the third test of `group_test.go`,
at time 7200000 with a horizon of two hours. -/
theorem C9_RefreshStreams_live_set_witness :
    (RefreshStreams 7200000
        [{ LogStreamName := "problematic_stream", LastEventTimestamp := none },
         { LogStreamName := "normal_stream", LastEventTimestamp := some 3600000 }]
        { Name := "group", StreamLastEventHorizon := 7200000, Streams := [] }).Streams.Nodup ∧
      "problematic_stream" ∉
        (RefreshStreams 7200000
          [{ LogStreamName := "problematic_stream", LastEventTimestamp := none },
           { LogStreamName := "normal_stream", LastEventTimestamp := some 3600000 }]
          { Name := "group", StreamLastEventHorizon := 7200000, Streams := [] }).Streams :=
  ⟨((C9_RefreshStreams_live_set 7200000
      [{ LogStreamName := "problematic_stream", LastEventTimestamp := none },
       { LogStreamName := "normal_stream", LastEventTimestamp := some 3600000 }]
      { Name := "group", StreamLastEventHorizon := 7200000, Streams := [] }).2.2
      List.nodup_nil).1,
    (C9_RefreshStreams_live_set 7200000
      [{ LogStreamName := "problematic_stream", LastEventTimestamp := none },
       { LogStreamName := "normal_stream", LastEventTimestamp := some 3600000 }]
      { Name := "group", StreamLastEventHorizon := 7200000, Streams := [] }).2.1
      "problematic_stream" (by decide) (by decide)⟩

/-- The test `Test_Group_WillAdd_NewStream`: horizon one hour, last event thirty
minutes before now. -/
theorem Test_Group_WillAdd_NewStream :
    (RefreshStreams 7200000
      [{ LogStreamName := "stream_name", LastEventTimestamp := some (7200000 - 1800000) }]
      { Name := "group", StreamLastEventHorizon := 3600000, Streams := [] }).Streams =
      ["stream_name"] := by
  decide

/-- The test `Test_Group_WillNotAdd_NewExpiredStream`: horizon one hour, last
event two hours before now. -/
theorem Test_Group_WillNotAdd_NewExpiredStream :
    (RefreshStreams 7200000
      [{ LogStreamName := "stream_name", LastEventTimestamp := some (7200000 - 7200000) }]
      { Name := "group", StreamLastEventHorizon := 3600000, Streams := [] }).Streams = [] := by
  decide

/-- The test `Test_Group_WillSkip_StreamWithNoLastEventTimestamp`: horizon two
hours, one entry without timestamp, one with a last event one hour before now. -/
theorem Test_Group_WillSkip_StreamWithNoLastEventTimestamp :
    (RefreshStreams 7200000
      [{ LogStreamName := "problematic_stream", LastEventTimestamp := none },
       { LogStreamName := "normal_stream", LastEventTimestamp := some (7200000 - 3600000) }]
      { Name := "group", StreamLastEventHorizon := 7200000, Streams := [] }).Streams =
      ["normal_stream"] := by
  decide

/-! ## C10: Monitor signals completion once, last -/

theorem finished_not_mem_publish (recs : List Event) :
    Action.finished ∉ recs.map Action.publish := by
  intro h
  obtain ⟨r, _, hr⟩ := List.mem_map.mp h
  cases hr

/-- The actions of one call of `Next`: none of them is the completion signal. -/
theorem Next_log (MatchString : Regexp → String → Bool)
    (GetLogEvents : GetLogEventsInput → Except String GetLogEventsOutput)
    (WriteStreamInfo : Stream → Option String) (w : World) :
    ∃ acts : List Action,
      (Next MatchString GetLogEvents WriteStreamInfo w).1.log = w.log ++ acts ∧
      Action.finished ∉ acts := by
  cases hfetch : GetLogEvents w.stream.Params with
  | error err =>
    refine ⟨[Action.fetch w.stream.Params], ?_, by simp⟩
    rw [(Next_of_error MatchString GetLogEvents WriteStreamInfo w err hfetch)]
  | ok output =>
    by_cases hev : output.Events = []
    · refine ⟨[Action.fetch w.stream.Params], ?_, by simp⟩
      rw [(Next_of_empty MatchString GetLogEvents WriteStreamInfo w output hfetch hev)]
    · obtain ⟨recs, hlog, _, _, _⟩ := digestAll_shape MatchString output.Events
        { stream := w.stream, log := w.log ++ [Action.fetch w.stream.Params] }
      refine ⟨[Action.fetch w.stream.Params] ++ recs.map Action.publish ++
        [Action.writeInfo (setNextToken
          (digestAll MatchString
            { stream := w.stream, log := w.log ++ [Action.fetch w.stream.Params] }
            output.Events).stream output.NextForwardToken)], ?_, ?_⟩
      · rw [(Next_of_nonempty MatchString GetLogEvents WriteStreamInfo w output hfetch hev)]
        simp only [hlog]
        simp [List.append_assoc]
      · intro h
        simp only [List.mem_append, List.mem_singleton] at h
        rcases h with (h | h) | h
        · cases h
        · exact finished_not_mem_publish recs h
        · cases h

theorem MonitorLoop_log (env : Env) (fuel : Nat) :
    ∀ (i : Nat) (w w2 : World), MonitorLoop env fuel i w = some w2 →
      ∃ acts : List Action, w2.log = w.log ++ acts ∧ Action.finished ∉ acts := by
  induction fuel with
  | zero =>
    intro i w w2 h
    simp [MonitorLoop] at h
  | succ fuel ih =>
    intro i w w2 h
    obtain ⟨acts, hlog, hfin⟩ :=
      Next_log env.MatchString (env.GetLogEvents i) (env.WriteStreamInfo i) w
    unfold MonitorLoop at h
    cases hN : Next env.MatchString (env.GetLogEvents i) (env.WriteStreamInfo i) w with
    | mk w1 err =>
      rw [hN] at h hlog
      simp only at hlog
      cases err with
      | some e =>
        simp only [Option.some.injEq] at h
        subst h
        exact ⟨acts, hlog, hfin⟩
      | none =>
        simp only at h
        by_cases hx : env.expired i = true
        · rw [if_pos hx] at h
          simp only [Option.some.injEq] at h
          subst h
          exact ⟨acts, hlog, hfin⟩
        · rw [if_neg hx] at h
          obtain ⟨acts2, hlog2, hfin2⟩ := ih _ _ _ h
          refine ⟨acts ++ [Action.sleep] ++ acts2, ?_, ?_⟩
          · rw [hlog2]
            simp only [hlog, List.append_assoc]
          · intro hm
            simp only [List.mem_append, List.mem_singleton] at hm
            rcases hm with (hm | hm) | hm
            · exact hfin hm
            · cases hm
            · exact hfin2 hm

theorem MonitorLoop_exits (env : Env) (n : Nat) :
    ∀ (fuel i : Nat) (w : World), n < fuel →
      (env.expired (i + n) = true ∨ ∀ p, ∃ err, env.GetLogEvents (i + n) p = Except.error err) →
      (MonitorLoop env fuel i w).isSome = true := by
  induction n with
  | zero =>
    intro fuel i w hlt hexit
    obtain ⟨f, rfl⟩ : ∃ f, fuel = f + 1 := ⟨fuel - 1, by omega⟩
    unfold MonitorLoop
    cases hN : Next env.MatchString (env.GetLogEvents i) (env.WriteStreamInfo i) w with
    | mk w1 err =>
      cases err with
      | some e => rfl
      | none =>
        simp only
        rcases hexit with hx | hf
        · rw [Nat.add_zero] at hx
          rw [if_pos hx]
          rfl
        · obtain ⟨err, herr⟩ := hf w.stream.Params
          rw [Nat.add_zero] at herr
          have := (Next_of_error env.MatchString (env.GetLogEvents i)
            (env.WriteStreamInfo i) w err herr)
          rw [this] at hN
          cases hN
  | succ n ih =>
    intro fuel i w hlt hexit
    obtain ⟨f, rfl⟩ : ∃ f, fuel = f + 1 := ⟨fuel - 1, by omega⟩
    unfold MonitorLoop
    cases hN : Next env.MatchString (env.GetLogEvents i) (env.WriteStreamInfo i) w with
    | mk w1 err =>
      cases err with
      | some e => rfl
      | none =>
        simp only
        by_cases hx : env.expired i = true
        · rw [if_pos hx]; rfl
        · rw [if_neg hx]
          apply ih f (i + 1) _ (by omega)
          have : i + 1 + n = i + (n + 1) := by omega
          rw [this]
          exact hexit

/-- C10: every run of `Monitor` that returns has sent the completion signal
exactly once, as its last action; when the registry read fails it returns at
once, having done nothing but the read and the signal; and it does return as
soon as the expiration signal is there at some iteration, or the fetch of some
iteration fails. -/
theorem C10_Monitor_finished_once (env : Env) (w : World) :
    (∀ (fuel : Nat) (w2 : World), Monitor env fuel w = some w2 →
        ∃ acts : List Action,
          w2.log = w.log ++ acts ++ [Action.finished] ∧ Action.finished ∉ acts) ∧
      (∀ err : String, (env.ReadStreamInfo w.stream).2 = some err →
        ∀ fuel : Nat, Monitor env fuel w =
          some { stream := (env.ReadStreamInfo w.stream).1
                 log := w.log ++ [Action.readInfo w.stream, Action.finished] }) ∧
      (∀ n : Nat,
        (env.expired n = true ∨ ∀ p, ∃ err, env.GetLogEvents n p = Except.error err) →
        ∀ fuel : Nat, n < fuel → (Monitor env fuel w).isSome = true) := by
  refine ⟨?_, ?_, ?_⟩
  · intro fuel w2 h
    unfold Monitor at h
    cases hB : MonitorBody env fuel w with
    | none => rw [hB] at h; cases h
    | some w1 =>
      rw [hB] at h
      simp only [Option.map_some', Option.some.injEq] at h
      subst h
      unfold MonitorBody at hB
      cases hR : (env.ReadStreamInfo w.stream).2 with
      | some e =>
        rw [hR] at hB
        simp only [Option.some.injEq] at hB
        subst hB
        exact ⟨[Action.readInfo w.stream], rfl, by simp⟩
      | none =>
        rw [hR] at hB
        simp only at hB
        obtain ⟨acts, hlog, hfin⟩ := MonitorLoop_log env fuel 0 _ _ hB
        refine ⟨[Action.readInfo w.stream] ++ acts, ?_, ?_⟩
        · simp only [hlog, List.append_assoc]
        · intro hm
          simp only [List.mem_append, List.mem_singleton] at hm
          rcases hm with hm | hm
          · cases hm
          · exact hfin hm
  · intro err hR fuel
    simp [Monitor, MonitorBody, hR]
  · intro n hexit fuel hlt
    unfold Monitor MonitorBody
    cases hR : (env.ReadStreamInfo w.stream).2 with
    | some e => simp
    | none =>
      simp only [Option.isSome_map']
      apply MonitorLoop_exits env n fuel 0 _ hlt
      rw [Nat.zero_add]
      exact hexit

/-- C10 at concrete inputs: a registry whose read fails, and a run whose
fetches return empty batches and whose expiration signal is there at the second
iteration. -/
theorem C10_Monitor_finished_once_witness :
    ((exampleEnv true false 0).ReadStreamInfo (exampleWorld none "").stream).2 =
        some "registry read failed" ∧
      Monitor (exampleEnv true false 0) 0 (exampleWorld none "") =
        some { stream := (exampleWorld none "").stream
               log := [Action.readInfo (exampleWorld none "").stream, Action.finished] } ∧
      Monitor (exampleEnv false false 1) 2 (exampleWorld none "") =
        some { stream := (exampleWorld none "").stream
               log :=
                 [Action.readInfo (exampleWorld none "").stream,
                  Action.fetch (exampleWorld none "").stream.Params, Action.sleep,
                  Action.fetch (exampleWorld none "").stream.Params, Action.finished] } ∧
      (∃ acts : List Action,
        [Action.readInfo (exampleWorld none "").stream,
            Action.fetch (exampleWorld none "").stream.Params, Action.sleep,
            Action.fetch (exampleWorld none "").stream.Params, Action.finished] =
          (exampleWorld none "").log ++ acts ++ [Action.finished] ∧
        Action.finished ∉ acts) ∧
      (Monitor (exampleEnv false true 9) 1 (exampleWorld none "")).isSome = true :=
  ⟨rfl,
    (C10_Monitor_finished_once (exampleEnv true false 0) (exampleWorld none "")).2.1
      "registry read failed" rfl 0,
    by decide,
    (C10_Monitor_finished_once (exampleEnv false false 1) (exampleWorld none "")).1 2
      { stream := (exampleWorld none "").stream
        log :=
          [Action.readInfo (exampleWorld none "").stream,
           Action.fetch (exampleWorld none "").stream.Params, Action.sleep,
           Action.fetch (exampleWorld none "").stream.Params, Action.finished] }
      (by decide),
    (C10_Monitor_finished_once (exampleEnv false true 9) (exampleWorld none "")).2.2 0
      (Or.inr fun _ => ⟨"fetch failed", rfl⟩) 1 (by decide)⟩

end Cloudwatchlogsbeat
